import Mathlib

/-!
Verification of the blog-toolkit collection pipeline.

This file gives a shallow embedding of the collection and deduplication
pipeline of the repository (modules feeds.py, crawler.py, collector.py,
database.py).  Network fetches, the feed-parsing library, the HTML parsing
library, the content-cleaning helper and the external rendering tool are
collaborators of the pipeline; their observable outcomes are supplied by a
World record, and the pipeline's own control flow is translated faithfully
from the Python source.  Exceptions in the source are modelled with Except,
truthiness of Python strings and optionals with explicit emptiness tests,
and Python dictionaries for posts with the Candidate structure.
-/

set_option autoImplicit false

namespace BlogToolkit

/-- Membership of pat as a contiguous character run of a list, used to embed
the Python substring test (the `in` operator on str). -/
def containsSeqAux (pat : List Char) : List Char → Bool
  | [] => pat.isEmpty
  | c :: cs => pat.isPrefixOf (c :: cs) || containsSeqAux pat cs

/-- Embedding of the Python substring test: containsSeq s pat is true iff pat
occurs contiguously inside s. -/
def containsSeq (s pat : String) : Bool :=
  containsSeqAux pat.toList s.toList

/-- Embedding of Python str.rstrip with a slash argument: drop trailing
slash characters. -/
def rstripSlash (s : String) : String :=
  String.mk (s.toList.reverse.dropWhile (fun c => c == '/')).reverse

/-- Embedding of Python str.endswith. -/
def strEndsWith (s pat : String) : Bool :=
  pat.toList.isSuffixOf s.toList

/-- Embedding of Python str.lower restricted to ASCII case folding. -/
def lowerStr (s : String) : String :=
  String.mk (s.toList.map Char.toLower)

/-- Fuel-indexed worker for the Python str.replace embedding: scan left to
right, replacing non-overlapping occurrences of the pattern.  The fuel is
the length of the scanned list, so the recursion is structural. -/
def replaceCharsAux (pat repl : List Char) : Nat → List Char → List Char
  | 0, l => l
  | fuel + 1, l =>
    match l with
    | [] => []
    | c :: cs =>
      if pat.isPrefixOf l && !pat.isEmpty then
        repl ++ replaceCharsAux pat repl fuel (List.drop pat.length l)
      else c :: replaceCharsAux pat repl fuel cs

/-- Embedding of Python str.replace: replace every non-overlapping
occurrence of pat by repl, scanning left to right. -/
def replaceSeq (s pat repl : String) : String :=
  String.mk (replaceCharsAux pat.toList repl.toList s.toList.length s.toList)

/-- Worker for the Python str.split embedding, carrying the reversed
current token. -/
def pySplitAux : List Char → List Char → List String
  | [], cur => if cur.isEmpty then [] else [String.mk cur.reverse]
  | c :: cs, cur =>
    if c.isWhitespace then
      if cur.isEmpty then pySplitAux cs []
      else String.mk cur.reverse :: pySplitAux cs []
    else pySplitAux cs (c :: cur)

/-- Embedding of Python str.split with no argument: split on whitespace
runs and drop empty fragments. -/
def pySplit (s : String) : List String :=
  pySplitAux s.toList []

/-- Whitespace-delimited token count of a string, the quantity computed by
len(content.split()) in collector.py. -/
def wordCount (s : String) : Nat :=
  (pySplit s).length

/-- Helper for the is_html regular expression: looks for an opening angle
bracket followed by an ASCII letter with a closing angle bracket later. -/
def isHtmlAux : List Char → Bool
  | [] => false
  | '<' :: c :: rest => (c.isAlpha && rest.contains '>') || isHtmlAux (c :: rest)
  | _ :: rest => isHtmlAux rest

/-- Embedding of content_cleaner.is_html on a non-empty string: the regex
searches for an HTML-tag-shaped substring. -/
def isHtmlStr (s : String) : Bool :=
  isHtmlAux s.toList

/-- Candidate post dictionary produced by the feed parser and the crawler
(title, url, content, published_date, author, tags, categories, metadata). -/
structure Candidate where
  title : String
  url : String
  content : Option String
  published_date : Option String
  author : Option String
  tags : List String
  categories : List String
  metadata : List (String × String)
deriving DecidableEq, Repr

/-- Result of parsing one feed page (and also the shape of the final result
of parse_feed): metadata fields plus the entry list. -/
structure FeedData where
  title : String
  link : String
  description : String
  author : String
  entries : List Candidate
deriving DecidableEq, Repr

/-- Outcome of fetching one web page and extracting its candidate posts:
fail models a requests exception (timeout, connection error), ok carries the
HTTP status and the posts the HTML extraction yields for that body. -/
inductive PageFetch where
  | fail : PageFetch
  | ok : Nat → List Candidate → PageFetch
deriving DecidableEq, Repr

/-- Outcome of one subprocess.run invocation of the external rendering tool:
either a timeout (raising subprocess.TimeoutExpired) or completion with an
exit code and captured standard output. -/
inductive SubRes where
  | timeout : SubRes
  | done : Int → String → SubRes
deriving DecidableEq, Repr

/-- A post link recovered from the rendering tool's script evaluation:
the url and the title the extraction script associated with it. -/
structure RawLink where
  url : String
  title : String
deriving DecidableEq, Repr

/-- World of collaborator outcomes: every network fetch, HEAD probe, feed
page parse, feed discovery, subprocess invocation, script-output parse and
content-clean result the pipeline can observe. -/
structure World where
  agentBrowser : Option String
  fetch : String → PageFetch
  headReq : String → Option (Nat × String)
  feedPage : String → Option FeedData
  discover : String → Option String
  archiveLinks : String → List String
  subRun : Nat → SubRes
  parseEval : String → List RawLink
  cleanHtmlF : String → String

/-- World in which every collaborator fails or returns nothing; concrete
worlds for the theorems override individual fields. -/
def defaultWorld : World where
  agentBrowser := none
  fetch := fun _ => PageFetch.fail
  headReq := fun _ => none
  feedPage := fun _ => none
  discover := fun _ => none
  archiveLinks := fun _ => []
  subRun := fun _ => SubRes.timeout
  parseEval := fun _ => []
  cleanHtmlF := fun s => s

/-! Feed acquisition (feeds.py). -/

/-- Synthetic pagination URL patterns of parse_feed for a page number:
/page/n/, /n/, ?page=n and &page=n appended to the stripped feed URL. -/
def paginationPatterns (feedUrl : String) (page : Nat) : List String :=
  let base := rstripSlash feedUrl
  [base ++ "/page/" ++ toString page ++ "/",
   base ++ "/" ++ toString page ++ "/",
   base ++ "?page=" ++ toString page,
   base ++ "&page=" ++ toString page]

/-- Content-type acceptance test of the pagination probe: the lowered
content-type must mention xml, rss or atom. -/
def feedContentTypeOk (ctype : String) : Bool :=
  let c := lowerStr ctype
  containsSeq c "xml" || containsSeq c "rss" || containsSeq c "atom"

/-- One HEAD probe of a candidate pagination URL: requires a 200 status and
a feed-like content type; a requests exception counts as failure. -/
def probeOk (w : World) (pattern : String) : Bool :=
  match w.headReq pattern with
  | none => false
  | some (status, ctype) => status == 200 && feedContentTypeOk ctype

/-- Selection of the current pagination URL for a page number: the first
pattern whose HEAD probe succeeds, if any. -/
def findPageUrl (w : World) (feedUrl : String) (page : Nat) : Option String :=
  (paginationPatterns feedUrl page).find? (probeOk w)

/-- Embedding of FeedParser._check_for_next_page: the source returns False
unconditionally (conservative, does not assume pagination exists). -/
def checkForNextPage (_fd : FeedData) (_base : String) : Bool :=
  false

/-- Loop body of parse_feed: fuel counts the remaining iterations of the
while loop (page runs from 1 to max_pages), meta holds the first page's
metadata, acc the accumulated entries. -/
def parseFeedAux (w : World) (feedUrl : String) :
    Nat → Nat → Option FeedData → List Candidate → Option FeedData × List Candidate
  | 0, _, meta, acc => (meta, acc)
  | fuel + 1, page, meta, acc =>
    let currentUrl? := if page == 1 then some feedUrl else findPageUrl w feedUrl page
    match currentUrl? with
    | none => (meta, acc)
    | some currentUrl =>
      match w.feedPage currentUrl with
      | none => (meta, acc)
      | some pd =>
        let meta' := if page == 1 then some pd else meta
        if pd.entries.isEmpty then (meta', acc)
        else
          let acc' := acc ++ pd.entries
          if checkForNextPage pd feedUrl then
            parseFeedAux w feedUrl fuel (page + 1) meta' acc'
          else (meta', acc')

/-- Embedding of FeedParser.parse_feed: paginate up to maxPages, return the
first page's metadata with all accumulated entries, or none when even the
first page does not parse. -/
def parseFeed (w : World) (feedUrl : String) (maxPages : Nat) : Option FeedData :=
  let r := parseFeedAux w feedUrl maxPages 1 none []
  match r.1 with
  | none => none
  | some m => some { m with entries := r.2 }

/-! Page extraction and crawling (crawler.py). -/

/-- URL normalization at the top of crawl_blog and quick_crawl_check: strip
trailing slashes and convert a feed URL back to a blog URL. -/
def normalizeBlogUrl (blogUrl : String) : String :=
  let b := rstripSlash blogUrl
  if strEndsWith b "/rss" || strEndsWith b "/feed" then
    rstripSlash (replaceSeq (replaceSeq b "/rss" "") "/feed" "")
  else b

/-- Embedding of BlogCrawler._extract_posts_from_page: skip already-visited
pages, absorb a 404 as an empty result, let raise_for_status map any other
error status to the caught-exception empty result, and otherwise return the
posts the HTML extraction yields.  The returned list is the new visited
set paired with the page's posts. -/
def extractPostsFromPage (w : World) (visited : List String) (pageUrl : String) :
    List String × List Candidate :=
  if visited.contains pageUrl then (visited, [])
  else
    let visited' := pageUrl :: visited
    match w.fetch pageUrl with
    | PageFetch.fail => (visited', [])
    | PageFetch.ok status posts =>
      if status == 404 then (visited', [])
      else if 400 ≤ status then (visited', [])
      else (visited', posts)

/-- Truthiness-aware bound test of the crawler: Python evaluates
max_posts and len(posts) >= max_posts, so a None or zero bound never stops
the accumulation. -/
def atMaxB : Option Nat → Nat → Bool
  | none, _ => false
  | some m, n => (m != 0) && m ≤ n

/-- Accumulation of one page's posts into the deduplicated result list:
a post is appended when its url is non-empty and not already among the
accumulated urls; with a bound, accumulation stops once the bound is hit. -/
def absorbBounded (maxPosts : Option Nat) : List Candidate → List Candidate → List Candidate
  | acc, [] => acc
  | acc, post :: rest =>
    if post.url != "" && !(((acc.filter (fun p => p.url != "")).map Candidate.url).contains post.url) then
      let acc' := acc ++ [post]
      if atMaxB maxPosts acc'.length then acc'
      else absorbBounded maxPosts acc' rest
    else absorbBounded maxPosts acc rest

/-- Page-visiting loop of crawl_blog: before each page the bound is checked,
then the page is extracted and absorbed. -/
def crawlLoop (w : World) (maxPosts : Option Nat) :
    List String → List String → List Candidate → List Candidate
  | [], _, posts => posts
  | url :: rest, visited, posts =>
    if atMaxB maxPosts posts.length then posts
    else
      let r := extractPostsFromPage w visited url
      crawlLoop w maxPosts rest r.1 (absorbBounded maxPosts posts r.2)

/-- Generic (non-browser) part of crawl_blog: visit the normalized blog URL,
the discovered archive pages, and the synthetic /page/2/ .. /page/10/ URLs
in that fixed order. -/
def crawlBlogGeneric (w : World) (blogUrl : String) (maxPosts : Option Nat) : List Candidate :=
  let b := normalizeBlogUrl blogUrl
  let urls := b :: (w.archiveLinks b ++ (List.range' 2 9).map (fun p => b ++ "/page/" ++ toString p ++ "/"))
  crawlLoop w maxPosts urls [] []

/-! Browser-based Substack crawl (crawler.py, crawl_substack_with_browser). -/

/-- Conversion of a parsed script link to a candidate post, as built inside
crawl_substack_with_browser: only title and url are filled in. -/
def rawToCandidate (r : RawLink) : Candidate where
  title := r.title
  url := r.url
  content := none
  published_date := none
  author := none
  tags := []
  categories := []
  metadata := []

/-- Running state of one browser crawl: the number of subprocess calls made
so far, the trace of tool subcommands issued, the accumulated posts and the
set of urls already seen. -/
structure BGlobal where
  calls : Nat
  trace : List String
  posts : List Candidate
  seen : List String
deriving DecidableEq, Repr

/-- One subprocess.run invocation of the rendering tool: consumes the next
outcome of the world and records the subcommand in the trace. -/
def runTool (w : World) (cmd : String) (g : BGlobal) : SubRes × BGlobal :=
  (w.subRun g.calls, { g with calls := g.calls + 1, trace := g.trace ++ [cmd] })

/-- Truthiness-aware emptiness test for the scroll guard: Python evaluates
not max_posts or len(posts) < max_posts. -/
def notFull : Option Nat → Nat → Bool
  | none, _ => true
  | some m, n => m == 0 || n < m

/-- Absorption of parsed script links into the browser crawl state: keep
links whose url is non-empty, mentions /p/ and was not seen before, stopping
at the bound exactly as the Python loop breaks. -/
def absorbLinks (maxPosts : Option Nat) : List RawLink → BGlobal → BGlobal
  | [], g => g
  | r :: rest, g =>
    if r.url != "" && containsSeq r.url "/p/" && !(g.seen.contains r.url) then
      let g' := { g with seen := r.url :: g.seen, posts := g.posts ++ [rawToCandidate r] }
      if atMaxB maxPosts g'.posts.length then g'
      else absorbLinks maxPosts rest g'
    else absorbLinks maxPosts rest g

/-- Scroll loop of the browser crawl (fifteen iterations in the source): a
scroll and an eval subprocess call per iteration; a timeout raises out of
the loop (as an error carrying the state), a parse failure is absorbed. -/
def scrollLoop (w : World) (maxPosts : Option Nat) : Nat → BGlobal → Except BGlobal BGlobal
  | 0, g => Except.ok g
  | n + 1, g =>
    let rs := runTool w "scroll" g
    match rs.1 with
    | SubRes.timeout => Except.error rs.2
    | SubRes.done _ _ =>
      let re := runTool w "eval" rs.2
      match re.1 with
      | SubRes.timeout => Except.error re.2
      | SubRes.done rc out =>
        let g' := if rc == 0 then absorbLinks maxPosts (w.parseEval out) re.2 else re.2
        if atMaxB maxPosts g'.posts.length then Except.ok g'
        else scrollLoop w maxPosts n g'

/-- Body of crawl_substack_with_browser after the tool was found: open the
archive page (falling back to the main page), dismiss modals (its bare
except absorbs even a timeout), run the extraction script, absorb and
scroll, then close.  A timeout of the open calls or of the first eval call
escapes the enclosing try as an error; a timeout inside the scroll loop is
caught by the inner generic handler and still reaches the close call. -/
def browserBody (w : World) (maxPosts : Option Nat) (g0 : BGlobal) : Except BGlobal BGlobal :=
  let r1 := runTool w "open" g0
  match r1.1 with
  | SubRes.timeout => Except.error r1.2
  | SubRes.done rc1 _ =>
    let step2 : Except BGlobal BGlobal :=
      if rc1 != 0 then
        let r2 := runTool w "open" r1.2
        match r2.1 with
        | SubRes.timeout => Except.error r2.2
        | SubRes.done _ _ => Except.ok r2.2
      else Except.ok r1.2
    match step2 with
    | Except.error g => Except.error g
    | Except.ok g2 =>
      let r3 := runTool w "find" g2
      let r4 := runTool w "eval" r3.2
      match r4.1 with
      | SubRes.timeout => Except.error r4.2
      | SubRes.done rc4 out4 =>
        let g5 :=
          if rc4 == 0 then
            let g' := absorbLinks maxPosts (w.parseEval out4) r4.2
            if notFull maxPosts g'.posts.length then
              match scrollLoop w maxPosts 15 g' with
              | Except.ok g'' => g''
              | Except.error g'' => g''
            else g'
          else r4.2
        let r5 := runTool w "close" g5
        Except.ok r5.2

/-- Result of a browser crawl: the posts obtained and the trace of tool
subcommands that were actually issued. -/
structure BrowserRun where
  posts : List Candidate
  trace : List String
deriving DecidableEq, Repr

/-- Embedding of BlogCrawler.crawl_substack_with_browser: without the tool
it falls back to the generic crawler; with it, the body runs and an escaped
timeout is caught by the outer handler, which logs and returns the posts
accumulated so far (without having issued a close). -/
def crawlSubstackWithBrowser (w : World) (blogUrl : String) (maxPosts : Option Nat) : BrowserRun :=
  match w.agentBrowser with
  | none => { posts := crawlBlogGeneric w blogUrl maxPosts, trace := [] }
  | some _ =>
    match browserBody w maxPosts { calls := 0, trace := [], posts := [], seen := [] } with
    | Except.ok g => { posts := g.posts, trace := g.trace }
    | Except.error g => { posts := g.posts, trace := g.trace }

/-- Condition guarding the browser-based paths of crawl_blog and
quick_crawl_check: a substack URL with the rendering tool present. -/
def substackPath (w : World) (blogUrl : String) : Bool :=
  containsSeq (lowerStr blogUrl) "substack.com" && w.agentBrowser.isSome

/-- Embedding of BlogCrawler.crawl_blog: substack URLs with the tool present
take the browser path, everything else the generic page crawl. -/
def crawlBlog (w : World) (blogUrl : String) (maxPosts : Option Nat) : List Candidate :=
  if substackPath w blogUrl then
    (crawlSubstackWithBrowser w blogUrl maxPosts).posts
  else crawlBlogGeneric w blogUrl maxPosts

/-- Page loop of quick_crawl_check: extract and absorb each candidate page,
returning early as soon as the accumulated count exceeds the feed count. -/
def quickLoop (w : World) (k : Nat) :
    List String → List String → List Candidate → Bool × Nat
  | [], _, posts => (decide (k < posts.length), posts.length)
  | url :: rest, visited, posts =>
    let r := extractPostsFromPage w visited url
    let posts' := absorbBounded none posts r.2
    if k < posts'.length then (true, posts'.length)
    else quickLoop w k rest r.1 posts'

/-- Embedding of BlogCrawler.quick_crawl_check: substack URLs with the tool
present probe through a bounded browser crawl and report more-available iff
anything at all was found; other URLs visit the blog URL plus synthetic
/page/n/ URLs and report more-available iff the accumulated distinct count
exceeds the feed count. -/
def quickCrawlCheck (w : World) (blogUrl : String) (k : Nat) (maxPagesToCheck : Nat) : Bool × Nat :=
  if substackPath w blogUrl then
    let found := (crawlSubstackWithBrowser w blogUrl (some 10)).posts.length
    (decide (0 < found), found)
  else
    let b := normalizeBlogUrl blogUrl
    let urls := b :: (List.range' 2 (maxPagesToCheck - 1)).map (fun p => b ++ "/page/" ++ toString p ++ "/")
    quickLoop w k urls [] []

/-! Collection coordination (collector.py). -/

/-- Suffix test of _collect_via_rss deciding whether the input already looks
like a feed URL. -/
def feedLikeSuffix (s : String) : Bool :=
  strEndsWith s ".xml" || strEndsWith s ".rss" || strEndsWith s ".atom" ||
    strEndsWith s "/feed" || strEndsWith s "/rss"

/-- Feed URL resolution of _collect_via_rss: a feed-like input is used
directly, otherwise discovery runs; the second component remembers the blog
URL when the input was one. -/
def resolveFeed (w : World) (input : String) : Option (String × Option String) :=
  if feedLikeSuffix input then some (input, none)
  else
    match w.discover input with
    | some d => some (d, some input)
    | none => none

/-- Blog URL derivation of the supplement step when only a feed URL was
given: the feed's declared link, or the feed URL with its feed path pieces
replaced and trailing slashes stripped. -/
def deriveBlogUrl (fd : FeedData) (feedUrl : String) : String :=
  if fd.link != "" then fd.link
  else rstripSlash (replaceSeq (replaceSeq (replaceSeq feedUrl "/rss/" "/") "/feed" "/") "/rss" "/")

/-- Crawler-post filter of the merge step: keep posts whose url is non-empty
and not among the urls seen so far, extending the seen set as it goes. -/
def mergeNew (seen : List String) : List Candidate → List Candidate
  | [] => []
  | c :: rest =>
    if c.url != "" && !(seen.contains c.url) then c :: mergeNew (c.url :: seen) rest
    else mergeNew seen rest

/-- Merge of _collect_via_rss: feed entries stay as they are, crawler posts
with new non-empty urls are appended behind them. -/
def mergeCrawled (entries : List Candidate) (crawled : List Candidate) : List Candidate :=
  entries ++ mergeNew (entries.map Candidate.url) crawled

/-- Result of _collect_via_rss: the resolved feed URL, the merged posts, and
whether the supplement step invoked the full page crawl (crawl_blog). -/
structure RssResult where
  feedUrl : Option String
  posts : List Candidate
  crawled : Bool
deriving DecidableEq, Repr

/-- Embedding of BlogCollector._collect_via_rss: resolve the feed URL, parse
the feed, and when it returned entries and supplementation is on, either
browser-crawl (substack) or quick-check and conditionally full-crawl, then
merge the crawler's finds behind the feed entries. -/
def collectViaRss (w : World) (input : String) (supplement : Bool) : RssResult :=
  match resolveFeed w input with
  | none => { feedUrl := none, posts := [], crawled := false }
  | some (feedUrl, blogUrl?) =>
    match parseFeed w feedUrl 10 with
    | none => { feedUrl := some feedUrl, posts := [], crawled := false }
    | some fd =>
      let entries := fd.entries
      let rssCount := entries.length
      let isSubstack := containsSeq (lowerStr (blogUrl?.getD input)) "substack.com"
      if supplement && 0 < rssCount then
        let blogUrl :=
          match blogUrl? with
          | some b => b
          | none => deriveBlogUrl fd feedUrl
        if blogUrl != "" then
          if isSubstack && w.agentBrowser.isSome then
            let crawledPosts := (crawlSubstackWithBrowser w blogUrl (some 200)).posts
            { feedUrl := some feedUrl, posts := mergeCrawled entries crawledPosts, crawled := false }
          else
            if (quickCrawlCheck w blogUrl rssCount 3).1 then
              { feedUrl := some feedUrl,
                posts := mergeCrawled entries (crawlBlog w blogUrl (some 200)),
                crawled := true }
            else
              { feedUrl := some feedUrl, posts := mergeCrawled entries [], crawled := false }
        else { feedUrl := some feedUrl, posts := entries, crawled := false }
      else { feedUrl := some feedUrl, posts := entries, crawled := false }

/-- Entries the feed fetch of collect yields for an input URL: empty when no
feed resolves, when the feed does not parse, or when it parses to zero
entries. -/
def feedEntriesFor (w : World) (input : String) : List Candidate :=
  match resolveFeed w input with
  | none => []
  | some (feedUrl, _) =>
    match parseFeed w feedUrl 10 with
    | none => []
    | some fd => fd.entries

/-- Outcome of collect_blog relevant to method fallback: the posts collect
would go on to ingest (none when it returns None to its caller) and whether
the pure page crawl crawl_blog was invoked on the way. -/
structure CollectOutcome where
  posts : Option (List Candidate)
  crawled : Bool
deriving DecidableEq, Repr

/-- Embedding of BlogCollector.collect_blog's method resolution and
fallback structure: auto resolves to rss or crawler through feed discovery
before the branch dispatch, so the trailing rss-then-crawler fallback branch
runs only for method strings outside the documented set. -/
def collectBlog (w : World) (blogUrl : String) (method : String) : CollectOutcome :=
  let m := if method == "auto" then (if (w.discover blogUrl).isSome then "rss" else "crawler") else method
  if m == "rss" then
    let r := collectViaRss w blogUrl true
    { posts := if r.posts.isEmpty then none else some r.posts, crawled := r.crawled }
  else if m == "crawler" then
    let ps := crawlBlog w blogUrl none
    { posts := if ps.isEmpty then none else some ps, crawled := true }
  else
    let r := collectViaRss w blogUrl true
    if r.posts.isEmpty then
      let ps := crawlBlog w blogUrl none
      { posts := if ps.isEmpty then none else some ps, crawled := true }
    else { posts := some r.posts, crawled := r.crawled }

/-! Persistence operations (database.py) and the update path. -/

/-- Persisted post row: the fields of the posts table, with the unique pid
and the owning blog_id. -/
structure PostRec where
  pid : Nat
  blog_id : Nat
  title : String
  url : String
  content : Option String
  published_date : Option String
  author : Option String
  word_count : Option Nat
  reading_time : Option Nat
  tags : Option String
  categories : Option String
  metadata : List (String × String)
deriving DecidableEq, Repr

/-- Persisted blog row with the fields update_blog reads. -/
structure BlogRec where
  bid : Nat
  name : String
  url : String
  feed_url : Option String
  author_name : Option String
  collection_method : String
deriving DecidableEq, Repr

/-- Store of persisted rows with the id counter for fresh posts. -/
structure Store where
  blogs : List BlogRec
  posts : List PostRec
  nextId : Nat
deriving DecidableEq, Repr

/-- Embedding of Database.get_blog: first blog row with the given id. -/
def getBlog (st : Store) (bid : Nat) : Option BlogRec :=
  st.blogs.find? (fun b => b.bid == bid)

/-- Embedding of Database.get_posts_by_blog restricted to the data the
pipeline uses: the posts owned by the blog. -/
def getPostsByBlog (st : Store) (bid : Nat) : List PostRec :=
  st.posts.filter (fun p => p.blog_id == bid)

/-- Join of a string list with comma separators, the Python join call of
add_post. -/
def joinCommaStr : List String → String
  | [] => ""
  | [x] => x
  | x :: y :: xs => x ++ "," ++ joinCommaStr (y :: xs)

/-- Comma join of add_post for tags and categories: None for an empty list. -/
def joinComma (xs : List String) : Option String :=
  if xs.isEmpty then none else some (joinCommaStr xs)

/-- Replacement of the first list element satisfying the test, used to model
the in-place update of the row the url lookup found. -/
def replaceFirst (f : PostRec → Bool) (g : PostRec → PostRec) : List PostRec → List PostRec
  | [] => []
  | p :: rest => if f p then g p :: rest else p :: replaceFirst f g rest

/-- Field overwrite add_post applies to an existing row with the same url:
every mutable field is replaced, while pid, blog_id and url stay. -/
def overwritePost (p : PostRec) (title : String) (content : Option String)
    (published_date author : Option String) (word_count reading_time : Option Nat)
    (tags categories : List String) (metadata : List (String × String)) : PostRec :=
  { p with
      title := title, content := content, published_date := published_date,
      author := author, word_count := word_count, reading_time := reading_time,
      tags := joinComma tags, categories := joinComma categories, metadata := metadata }

/-- Fresh row add_post creates when no row with the url exists. -/
def mkFreshPost (pid blog_id : Nat) (title url : String) (content : Option String)
    (published_date author : Option String) (word_count reading_time : Option Nat)
    (tags categories : List String) (metadata : List (String × String)) : PostRec :=
  { pid := pid, blog_id := blog_id, title := title, url := url, content := content,
    published_date := published_date, author := author, word_count := word_count,
    reading_time := reading_time, tags := joinComma tags,
    categories := joinComma categories, metadata := metadata }

/-- Embedding of Database.add_post: look the row up by url alone; overwrite
it in place when found, create a fresh row otherwise.  Returns the stored
row and the new store. -/
def addPost (st : Store) (blog_id : Nat) (title url : String) (content : Option String)
    (published_date author : Option String) (word_count reading_time : Option Nat)
    (tags categories : List String) (metadata : List (String × String)) : PostRec × Store :=
  match st.posts.find? (fun p => p.url == url) with
  | some existing =>
    let updated := overwritePost existing title content published_date author
      word_count reading_time tags categories metadata
    (updated, { st with posts := replaceFirst (fun p => p.url == url) (fun _ => updated) st.posts })
  | none =>
    let post := mkFreshPost st.nextId blog_id title url content published_date author
      word_count reading_time tags categories metadata
    (post, { st with posts := st.posts ++ [post], nextId := st.nextId + 1 })

/-- Content after the per-post cleaning step of the ingestion loops: markup
content is cleaned, everything else is kept as it is. -/
def cleanCandidateContent (w : World) (c : Candidate) : Option String :=
  match c.content with
  | none => none
  | some ct => if ct != "" && isHtmlStr ct then some (w.cleanHtmlF ct) else some ct

/-- Derived word_count and reading_time of the ingestion loops: computed
only for non-empty content, with reading_time = max 1 (word_count / 200). -/
def derivedCounts (content : Option String) : Option Nat × Option Nat :=
  match content with
  | none => (none, none)
  | some ct =>
    if ct != "" then (some (wordCount ct), some (max 1 (wordCount ct / 200)))
    else (none, none)

/-- Python or on optional strings: the left value unless it is missing or
empty. -/
def pyOr (a b : Option String) : Option String :=
  match a with
  | some s => if s != "" then some s else b
  | none => b

/-- Ingestion of one candidate into the store, the shared body of the
collect and update loops: clean the content, derive the counts, upsert. -/
def ingestPost (w : World) (blogId : Nat) (authorFallback : Option String)
    (st : Store) (c : Candidate) : Store :=
  let content := cleanCandidateContent w c
  let d := derivedCounts content
  (addPost st blogId c.title c.url content c.published_date (pyOr c.author authorFallback)
    d.1 d.2 c.tags c.categories c.metadata).2

/-- Candidate list update_blog recomputes for a blog: the rss path when the
stored method is rss with a non-empty feed url, the crawler otherwise. -/
def recollect (w : World) (blog : BlogRec) : List Candidate :=
  if blog.collection_method == "rss" && blog.feed_url.getD "" != "" then
    (collectViaRss w (blog.feed_url.getD "") true).posts
  else crawlBlog w blog.url none

/-- Embedding of BlogCollector.update_blog: raise ValueError (as an error
value) for an unknown blog id; otherwise recollect, skip candidates whose
url is already persisted for this blog, ingest the rest and return their
count with the new store. -/
def updateBlog (w : World) (st : Store) (blogId : Nat) : Except String (Nat × Store) :=
  match getBlog st blogId with
  | none => Except.error ("Blog with ID " ++ toString blogId ++ " not found")
  | some blog =>
    let posts := recollect w blog
    let existingUrls := (getPostsByBlog st blogId).map PostRec.url
    let r := posts.foldl
      (fun (acc : Nat × Store) c =>
        if existingUrls.contains c.url then acc
        else (acc.1 + 1, ingestPost w blogId blog.author_name acc.2 c))
      (0, st)
    Except.ok r

/-- Success test on the update result, separating the normal return from the
raised ValueError. -/
def exceptOk (e : Except String (Nat × Store)) : Bool :=
  match e with
  | Except.ok _ => true
  | Except.error _ => false

/-! Concrete fixtures for witnesses and counterexamples. -/

/-- Candidate with only a title and a url, the shape the link-based
extraction paths produce. -/
def mkCand (t u : String) : Candidate :=
  ⟨t, u, none, none, none, [], [], []⟩

/-- Store without any rows. -/
def emptyStore : Store :=
  ⟨[], [], 0⟩

/-! Claim C9: 404 pages extract to the empty list. -/

/-- Claim C9: for every page URL whose HTTP fetch returns status 404, the
per-page post extraction returns the empty list (and, the embedding being a
total function, no exception escapes to the caller). -/
theorem extract_posts_404_empty (w : World) (visited : List String) (url : String)
    (ps : List Candidate) (h : w.fetch url = PageFetch.ok 404 ps) :
    (extractPostsFromPage w visited url).2 = [] := by
  unfold extractPostsFromPage
  split
  · rfl
  · simp [h]

/-- World whose every page fetch is a 404 carrying extractable markup. -/
def w9 : World :=
  { defaultWorld with fetch := fun _ => PageFetch.ok 404 [mkCand "x" "https://x.example/p"] }

/-- Witness for claim C9 at a concrete world and page. -/
theorem extract_posts_404_empty_witness :
    (extractPostsFromPage w9 [] "https://x.example").2 = [] :=
  extract_posts_404_empty w9 [] "https://x.example" [mkCand "x" "https://x.example/p"] rfl

/-! Claim C3: exceptions out of collect and update. -/

/-- Claim C3 (counterexample): update_blog raises ValueError for a blog id
that is not in the store, so not every failure is absorbed into the
sentinel returns. -/
theorem update_missing_blog_raises_cex :
    updateBlog defaultWorld emptyStore 1 = Except.error "Blog with ID 1 not found" ∧
    exceptOk (updateBlog defaultWorld emptyStore 1) = false :=
  ⟨rfl, rfl⟩

/-- Claim C3 (amended): collect is exception-free (its embedding is a total
function), and update raises exactly when the blog id does not exist;
otherwise every lower-level failure is absorbed and the sentinel values are
the only failure signals. -/
theorem update_ok_iff_blog_exists (w : World) (st : Store) (bid : Nat) :
    exceptOk (updateBlog w st bid) = (getBlog st bid).isSome := by
  cases h : getBlog st bid <;> simp [updateBlog, h, exceptOk]

/-! Claim C2: feed pagination probing. -/

/-- Claim C2 (amended): parse_feed never reaches its synthetic pagination
URLs: after the first page the conservative next-page check stops the loop,
so the result is exactly the first page's parse, whatever the HEAD probes
would have answered. -/
theorem parse_feed_first_page_only (w : World) (u : String) :
    parseFeed w u 10 = w.feedPage u := by
  cases h : w.feedPage u with
  | none => simp [parseFeed, parseFeedAux, h]
  | some pd =>
    obtain ⟨t, l, d, a, es⟩ := pd
    by_cases he : es.isEmpty = true
    · have hnil : es = [] := by simpa using he
      subst hnil
      simp [parseFeed, parseFeedAux, h]
    · simp [parseFeed, parseFeedAux, h, he, checkForNextPage]

/-- First feed page of the pagination counterexample. -/
def pdOne : FeedData :=
  ⟨"T", "https://e.example", "", "", [mkCand "one" "https://e.example/p1"]⟩

/-- Second feed page of the pagination counterexample, reachable through
the first synthetic pagination pattern. -/
def pdTwo : FeedData :=
  ⟨"T", "https://e.example", "", "", [mkCand "two" "https://e.example/p2"]⟩

/-- World in which the feed has a second page: the HEAD probe of every
pagination pattern reports an rss content type, and the /page/2/ pattern
parses to a further entry. -/
def cw2 : World :=
  { defaultWorld with
      feedPage := fun u =>
        if u == "https://e.example/feed" then some pdOne
        else if u == "https://e.example/feed/page/2/" then some pdTwo
        else none,
      headReq := fun _ => some (200, "application/rss+xml") }

/-- Claim C2 (counterexample): the probe of the first /page/2/ pattern
succeeds and that page parses to one further entry, yet parse_feed returns
the first page's single entry and never the concatenation. -/
theorem parse_feed_pagination_cex :
    probeOk cw2 "https://e.example/feed/page/2/" = true ∧
    (paginationPatterns "https://e.example/feed" 2).head? = some "https://e.example/feed/page/2/" ∧
    cw2.feedPage "https://e.example/feed/page/2/" = some pdTwo ∧
    parseFeed cw2 "https://e.example/feed" 10 = some pdOne ∧
    (parseFeed cw2 "https://e.example/feed" 10).map FeedData.entries ≠
      some (pdOne.entries ++ pdTwo.entries) := by
  refine ⟨by decide, by decide, by decide, ?_, by decide⟩
  decide

/-! Claim C4: the quick-check threshold. -/

/-- Auxiliary characterization of the quick-check page loop: the boolean it
returns is exactly the comparison of its final accumulated count with the
feed count. -/
theorem quickLoop_fst (w : World) (k : Nat) :
    ∀ urls visited posts,
      (quickLoop w k urls visited posts).1 =
        decide (k < (quickLoop w k urls visited posts).2) := by
  intro urls
  induction urls with
  | nil => intro visited posts; simp [quickLoop]
  | cons u rest ih =>
    intro visited posts
    simp only [quickLoop]
    by_cases h : k < (absorbBounded none posts (extractPostsFromPage w visited u).2).length
    · simp [h]
    · simp [h, ih]

/-- Claim C4 (amended): quickCheck returns hasMore iff the accumulated
distinct-URL count strictly exceeds the threshold, where the threshold is
the given knownCount on the generic path but zero on the substack browser
path (there any find at all reports more); for knownCount zero the two
coincide, so any non-empty probe yields hasMore. -/
theorem quick_check_threshold (w : World) (blogUrl : String) (k m : Nat) :
    (quickCrawlCheck w blogUrl k m).1 =
      decide ((if substackPath w blogUrl then 0 else k) < (quickCrawlCheck w blogUrl k m).2) := by
  by_cases h : substackPath w blogUrl = true
  · simp [quickCrawlCheck, h]
  · simp only [Bool.not_eq_true] at h
    simp [quickCrawlCheck, h, quickLoop_fst]

/-- Ten distinct post links for the substack counterexample world. -/
def tenLinks : List RawLink :=
  (List.range 10).map (fun i => ⟨"https://bb.example/p/" ++ toString i, "t"⟩)

/-- World of the quick-check counterexample: the rendering tool is present
and every script evaluation yields ten distinct post links. -/
def w4 : World :=
  { defaultWorld with
      agentBrowser := some "/usr/bin/agent-browser",
      subRun := fun _ => SubRes.done 0 "out",
      parseEval := fun _ => tenLinks }

/-- Claim C4 (counterexample): on a substack blog with the rendering tool
present, the bounded probe accumulates 10 distinct URLs against a
knownCount of 30; the claim demands hasMore iff 30 is exceeded, yet
quickCheck reports hasMore. -/
theorem quick_check_substack_cex :
    quickCrawlCheck w4 "https://s.substack.com" 30 3 = (true, 10) ∧
    ¬ (30 : Nat) < (quickCrawlCheck w4 "https://s.substack.com" 30 3).2 := by
  exact ⟨by decide, by decide⟩

/-! Claim C6: the browser session close. -/

/-- World in which the open and modal-dismiss calls succeed and the first
script evaluation times out. -/
def w6 : World :=
  { defaultWorld with
      agentBrowser := some "/usr/bin/agent-browser",
      subRun := fun n => if n ≤ 1 then SubRes.done 0 "" else SubRes.timeout }

/-- World in which every tool invocation succeeds with empty output. -/
def w6ok : World :=
  { defaultWorld with
      agentBrowser := some "/usr/bin/agent-browser",
      subRun := fun _ => SubRes.done 0 "" }

/-- Claim C6: when the first script-evaluation subprocess call times out
after the session was opened, the browser crawl returns without ever
issuing the close subcommand (the timeout escapes past the close call to
the outer handler), while a run without timeouts does close the session. -/
theorem browser_timeout_skips_close :
    ((crawlSubstackWithBrowser w6 "https://s.substack.com" (some 200)).trace = ["open", "find", "eval"] ∧
      "close" ∉ (crawlSubstackWithBrowser w6 "https://s.substack.com" (some 200)).trace) ∧
    "close" ∈ (crawlSubstackWithBrowser w6ok "https://s.substack.com" (some 200)).trace := by
  exact ⟨⟨by decide, by decide⟩, by decide⟩

/-! Claim C1: fallback to a pure crawl on an empty feed. -/

/-- Entry-emptiness lemma for the rss collection path: when the feed fetch
yields zero entries, the supplement step never runs, so _collect_via_rss
returns no posts and has not invoked the crawler. -/
theorem collectViaRss_empty (w : World) (input : String)
    (h : feedEntriesFor w input = []) :
    (collectViaRss w input true).posts = [] ∧ (collectViaRss w input true).crawled = false := by
  unfold feedEntriesFor at h
  cases hr : resolveFeed w input with
  | none => simp [collectViaRss, hr]
  | some p =>
    obtain ⟨feedUrl, blogUrl?⟩ := p
    simp only [hr] at h
    cases hp : parseFeed w feedUrl 10 with
    | none => simp [collectViaRss, hr, hp]
    | some fd =>
      simp only [hp] at h
      simp [collectViaRss, hr, hp, h]

/-- World of the C1 counterexample: a feed is discoverable but parses to
nothing, while the plain page crawl would find a post. -/
def cw1 : World :=
  { defaultWorld with
      discover := fun _ => some "https://example.com/feed.xml",
      fetch := fun u =>
        if u == "https://example.com" then PageFetch.ok 200 [mkCand "p" "https://example.com/post-1"]
        else PageFetch.fail }

/-- Claim C1 (counterexample): the feed fetch yields zero entries and a pure
crawl would find a post, yet collect with method rss (and with auto, which
resolves to rss because a feed is discoverable) reports failure without the
crawler ever being invoked. -/
theorem collect_rss_empty_no_fallback_cex :
    feedEntriesFor cw1 "https://example.com" = [] ∧
    collectBlog cw1 "https://example.com" "rss" = ⟨none, false⟩ ∧
    collectBlog cw1 "https://example.com" "auto" = ⟨none, false⟩ ∧
    crawlBlog cw1 "https://example.com" none ≠ [] := by
  exact ⟨by decide, by decide, by decide, by decide⟩

/-- Claim C1 (amended): when the feed fetch yields zero entries, collect
with requested method rss — and with auto whenever a feed is discoverable,
since auto then resolves to rss — returns None without invoking the pure
crawl; only the explicit crawler method (or auto without a discoverable
feed, which resolves to crawler) invokes it. -/
theorem collect_rss_empty_behavior (w : World) (blogUrl : String)
    (h : feedEntriesFor w blogUrl = []) :
    collectBlog w blogUrl "rss" = ⟨none, false⟩ ∧
    ((w.discover blogUrl).isSome = true → collectBlog w blogUrl "auto" = ⟨none, false⟩) ∧
    (collectBlog w blogUrl "crawler").crawled = true := by
  have hc := collectViaRss_empty w blogUrl h
  refine ⟨?_, ?_, ?_⟩
  · simp [collectBlog, hc.1, hc.2]
  · intro hd
    simp [collectBlog, hd, hc.1, hc.2]
  · simp [collectBlog]

/-- Witness for the amended claim C1 at the counterexample world. -/
theorem collect_rss_empty_behavior_witness :
    collectBlog cw1 "https://example.com" "rss" = ⟨none, false⟩ :=
  (collect_rss_empty_behavior cw1 "https://example.com" (by decide)).1

/-! Claim C8: the derived word_count and reading_time. -/

/-- Pair of derived fields the ingestion loops hand to add_post for one
candidate: the word count and reading time of its cleaned content. -/
def ingestedDerived (w : World) (c : Candidate) : Option Nat × Option Nat :=
  derivedCounts (cleanCandidateContent w c)

/-- Claim C8: for a post whose cleaned content is non-empty, the ingested
word_count is the whitespace-delimited token count of the cleaned content
and reading_time is max 1 of its floor division by 200; in particular 400
tokens derive (400, 2) and 150 tokens derive (150, 1). -/
theorem word_count_reading_time_derivation (w : World) (c : Candidate) (cc : String)
    (hcc : cleanCandidateContent w c = some cc) (hne : cc ≠ "") :
    ingestedDerived w c = (some (wordCount cc), some (max 1 (wordCount cc / 200))) ∧
    (wordCount cc = 400 → ingestedDerived w c = (some 400, some 2)) ∧
    (wordCount cc = 150 → ingestedDerived w c = (some 150, some 1)) := by
  have h1 : ingestedDerived w c = (some (wordCount cc), some (max 1 (wordCount cc / 200))) := by
    simp [ingestedDerived, derivedCounts, hcc, hne]
  refine ⟨h1, ?_, ?_⟩
  · intro h4
    rw [h1, h4]
    norm_num
  · intro h5
    rw [h1, h5]
    norm_num

/-- Candidate with plain three-token content for the witness. -/
def c8 : Candidate :=
  ⟨"t", "https://e.example/p", some "alpha beta gamma", none, none, [], [], []⟩

/-- Witness for claim C8 at a concrete candidate. -/
theorem word_count_reading_time_derivation_witness :
    ingestedDerived defaultWorld c8 = (some 3, some 1) :=
  (word_count_reading_time_derivation defaultWorld c8 "alpha beta gamma" (by decide) (by decide)).1

/-! Claim C5: the feed and crawler merge. -/

/-- First crawler post of the merge counterexample. -/
def cA : Candidate := mkCand "first" "https://b.example/post"

/-- Second crawler post of the merge counterexample, a distinct record with
the same url. -/
def cB : Candidate := mkCand "second" "https://b.example/post"

/-- Claim C5 (counterexample): with an empty feed list and two distinct
crawler records sharing one url, the second record's url is not among the
feed urls yet the record is not appended, so the merge is not the claimed
set of all crawler posts with fresh urls. -/
theorem merge_duplicate_crawler_cex :
    cB.url ∉ (([] : List Candidate).map Candidate.url) ∧
    cB ∉ mergeCrawled [] [cA, cB] ∧
    mergeCrawled [] [cA, cB] ≠
      ([] : List Candidate) ++
        [cA, cB].filter (fun c => !((([] : List Candidate).map Candidate.url).contains c.url)) := by
  exact ⟨by decide, by decide, by decide⟩

/-- Soundness of the merge filter: everything it appends is a crawler post
with a non-empty url outside the seen set. -/
theorem mergeNew_mem (C : List Candidate) :
    ∀ (seen : List String), ∀ c ∈ mergeNew seen C, c ∈ C ∧ c.url ∉ seen ∧ c.url ≠ "" := by
  induction C with
  | nil => intro seen c hc; simp [mergeNew] at hc
  | cons a rest ih =>
    intro seen c hc
    simp only [mergeNew] at hc
    by_cases ha : (a.url != "" && !(seen.contains a.url)) = true
    · rw [if_pos ha] at hc
      have ha' : a.url ≠ "" ∧ a.url ∉ seen := by
        simpa [List.elem_iff] using ha
      rcases List.mem_cons.mp hc with h | h
      · subst h
        exact ⟨List.mem_cons_self _ _, ha'.2, ha'.1⟩
      · obtain ⟨hm, hs, hn⟩ := ih (a.url :: seen) c h
        exact ⟨List.mem_cons_of_mem a hm, fun hx => hs (List.mem_cons_of_mem _ hx), hn⟩
    · rw [if_neg ha] at hc
      obtain ⟨hm, hs, hn⟩ := ih seen c hc
      exact ⟨List.mem_cons_of_mem a hm, hs, hn⟩

/-- Completeness of the merge filter at url granularity: the url of every
crawler post that is non-empty and outside the seen set occurs among the
appended urls. -/
theorem mergeNew_covers (C : List Candidate) :
    ∀ (seen : List String), ∀ c ∈ C, c.url ≠ "" → c.url ∉ seen →
      c.url ∈ (mergeNew seen C).map Candidate.url := by
  induction C with
  | nil => intro seen c hc; simp at hc
  | cons a rest ih =>
    intro seen c hc hne hns
    simp only [mergeNew]
    by_cases hcond : (a.url != "" && !(seen.contains a.url)) = true
    · rw [if_pos hcond, List.map_cons]
      by_cases heq : c.url = a.url
      · rw [heq]
        exact List.mem_cons_self _ _
      · have h' : c ∈ rest := by
          rcases List.mem_cons.mp hc with h | h
          · exact absurd (congrArg Candidate.url h) heq
          · exact h
        refine List.mem_cons_of_mem _ (ih (a.url :: seen) c h' hne ?_)
        intro hx
        rcases List.mem_cons.mp hx with hx | hx
        · exact heq hx
        · exact hns hx
    · rw [if_neg hcond]
      have h' : c ∈ rest := by
        rcases List.mem_cons.mp hc with h | h
        · exfalso
          apply hcond
          subst h
          simp [List.elem_iff, hne, hns]
        · exact h
      exact ih seen c h' hne hns

/-- Seen-set extensionality of the merge filter: only membership of the
crawler urls matters. -/
theorem mergeNew_congr (C : List Candidate) :
    ∀ (s1 s2 : List String),
      (∀ u ∈ C.map Candidate.url, s1.contains u = s2.contains u) →
      mergeNew s1 C = mergeNew s2 C := by
  induction C with
  | nil => intro s1 s2 _; rfl
  | cons a rest ih =>
    intro s1 s2 hext
    have ha := hext a.url (by simp)
    simp only [mergeNew, ha]
    by_cases hcond : (a.url != "" && !(s2.contains a.url)) = true
    · rw [if_pos hcond, if_pos hcond]
      have : mergeNew (a.url :: s1) rest = mergeNew (a.url :: s2) rest := by
        refine ih _ _ ?_
        intro u hu
        simp only [List.contains_cons]
        rw [hext u (List.mem_cons_of_mem _ hu)]
      rw [this]
    · rw [if_neg hcond, if_neg hcond]
      exact ih s1 s2 (fun u hu => hext u (List.mem_cons_of_mem _ hu))

/-- Exact filter characterization of the merge under duplicate-free crawler
urls: with pairwise distinct non-empty urls the appended list is precisely
the crawler posts whose urls are outside the seen set. -/
theorem mergeNew_eq_filter (C : List Candidate) :
    ∀ (seen : List String), (C.map Candidate.url).Nodup → (∀ c ∈ C, c.url ≠ "") →
      mergeNew seen C = C.filter (fun c => !(seen.contains c.url)) := by
  induction C with
  | nil => intro seen _ _; rfl
  | cons a rest ih =>
    intro seen hnd hne
    have hmc : (a :: rest).map Candidate.url = a.url :: rest.map Candidate.url := rfl
    rw [hmc] at hnd
    have hnd0 := List.nodup_cons.mp hnd
    have hane : a.url ≠ "" := hne a (List.mem_cons_self a rest)
    have hrest : ∀ c ∈ rest, c.url ≠ "" := fun c hcm => hne c (List.mem_cons_of_mem a hcm)
    simp only [mergeNew, List.filter_cons]
    by_cases hc : seen.contains a.url = true
    · have hmem : a.url ∈ seen := List.elem_iff.mp hc
      have hcond : ¬ (a.url != "" && !(seen.contains a.url)) = true := by
        simp [hmem]
      rw [if_neg hcond, if_neg (by simp [hmem] : ¬ (!(seen.contains a.url)) = true)]
      exact ih seen hnd0.2 hrest
    · have hmem : a.url ∉ seen := fun hx => hc (List.elem_iff.mpr hx)
      have hcond : (a.url != "" && !(seen.contains a.url)) = true := by
        simp [hmem, hane]
      rw [if_pos hcond, if_pos (by simp [hmem] : (!(seen.contains a.url)) = true)]
      have hshift : mergeNew (a.url :: seen) rest = mergeNew seen rest := by
        refine mergeNew_congr rest _ _ ?_
        intro u hu
        have hua : u ≠ a.url := by
          intro hx
          exact hnd0.1 (by rw [← hx]; exact hu)
        simp [List.contains_cons, hua]
      rw [hshift, ih seen hnd0.2 hrest]

/-- Claim C5 (amended): the merge keeps the feed entries unchanged as a
prefix and appends crawler posts first-occurrence-per-url: every appended
post is a crawler post whose url is non-empty and not a feed url, every
such url is represented, and when the crawler urls are pairwise distinct
and non-empty the appended posts are exactly the crawler posts whose urls
are not feed urls, as the claim states. -/
theorem merge_characterization (F C : List Candidate) :
    mergeCrawled F C = F ++ mergeNew (F.map Candidate.url) C ∧
    (∀ c ∈ mergeNew (F.map Candidate.url) C,
        c ∈ C ∧ c.url ∉ F.map Candidate.url ∧ c.url ≠ "") ∧
    (∀ c ∈ C, c.url ≠ "" → c.url ∉ F.map Candidate.url →
        c.url ∈ (mergeNew (F.map Candidate.url) C).map Candidate.url) ∧
    ((C.map Candidate.url).Nodup → (∀ c ∈ C, c.url ≠ "") →
        mergeCrawled F C = F ++ C.filter (fun c => !((F.map Candidate.url).contains c.url))) := by
  refine ⟨rfl, mergeNew_mem C (F.map Candidate.url), mergeNew_covers C (F.map Candidate.url), ?_⟩
  intro hnd hne
  unfold mergeCrawled
  rw [mergeNew_eq_filter C (F.map Candidate.url) hnd hne]

/-- Feed entry of the merge witness. -/
def f1 : Candidate := mkCand "f" "https://b.example/f1"

/-- Fresh crawler post of the merge witness. -/
def cX : Candidate := mkCand "x" "https://b.example/x"

/-- Crawler post of the merge witness duplicating the feed entry's url. -/
def cY : Candidate := mkCand "y" "https://b.example/f1"

/-- Witness for the amended claim C5 at concrete lists with distinct
crawler urls. -/
theorem merge_characterization_witness :
    mergeCrawled [f1] [cX, cY] =
      [f1] ++ [cX, cY].filter (fun c => !(([f1].map Candidate.url).contains c.url)) :=
  (merge_characterization [f1] [cX, cY]).2.2.2 (by decide) (by decide)

/-! Claim C10: url-keyed upsert across blogs. -/

/-- Length preservation of the first-match replacement. -/
theorem replaceFirst_length (f : PostRec → Bool) (g : PostRec → PostRec) :
    ∀ l : List PostRec, (replaceFirst f g l).length = l.length := by
  intro l
  induction l with
  | nil => rfl
  | cons q rest ih =>
    simp only [replaceFirst]
    by_cases hq : f q = true
    · rw [if_pos hq]
      simp
    · rw [if_neg hq]
      simp [ih]

/-- Projection preservation of the first-match replacement: replacing the
found row by one agreeing on a projection leaves the projected list
unchanged. -/
theorem replaceFirst_map {α : Type} (f : PostRec → Bool) (r : PostRec) (v : PostRec → α) :
    ∀ (l : List PostRec) (p : PostRec), l.find? f = some p → v r = v p →
      (replaceFirst f (fun _ => r) l).map v = l.map v := by
  intro l
  induction l with
  | nil => intro p hp _; simp at hp
  | cons q rest ih =>
    intro p hp hv
    simp only [replaceFirst]
    by_cases hq : f q = true
    · rw [List.find?_cons_of_pos _ hq] at hp
      have hqp : q = p := by injection hp
      rw [if_pos hq, List.map_cons, List.map_cons, hv, hqp]
    · rw [List.find?_cons_of_neg _ hq] at hp
      rw [if_neg hq, List.map_cons, List.map_cons, ih p hp hv]

/-- Lookup after the first-match replacement: the replaced row is found. -/
theorem replaceFirst_find? (f : PostRec → Bool) (r : PostRec) (hr : f r = true) :
    ∀ (l : List PostRec) (p : PostRec), l.find? f = some p →
      (replaceFirst f (fun _ => r) l).find? f = some r := by
  intro l
  induction l with
  | nil => intro p hp; simp at hp
  | cons q rest ih =>
    intro p hp
    simp only [replaceFirst]
    by_cases hq : f q = true
    · rw [if_pos hq]
      exact List.find?_cons_of_pos _ hr
    · rw [List.find?_cons_of_neg _ hq] at hp
      rw [if_neg hq, List.find?_cons_of_neg _ hq]
      exact ih p hp

/-- Claim C10: add_post looks the existing post up by url alone, so
ingesting a url persisted under another blog overwrites that row's mutable
fields in place while its blog_id, pid and url stay; the url list and the
ownership projection of the store are unchanged, so the post never moves
and the ingesting blog gains no post of its own. -/
theorem add_post_url_keyed_overwrite
    (st : Store) (p : PostRec) (b2 : Nat) (title url : String) (content : Option String)
    (pubd auth : Option String) (wc rt : Option Nat) (tags cats : List String)
    (md : List (String × String))
    (hfind : st.posts.find? (fun q => q.url == url) = some p) :
    let r := addPost st b2 title url content pubd auth wc rt tags cats md
    r.1 = overwritePost p title content pubd auth wc rt tags cats md ∧
    r.1.blog_id = p.blog_id ∧
    r.1.pid = p.pid ∧
    r.1.url = p.url ∧
    r.2.blogs = st.blogs ∧
    r.2.posts.length = st.posts.length ∧
    r.2.posts.map PostRec.blog_id = st.posts.map PostRec.blog_id ∧
    r.2.posts.map PostRec.url = st.posts.map PostRec.url ∧
    r.2.posts.find? (fun q => q.url == url) = some r.1 ∧
    (r.2.posts.filter (fun q => q.blog_id == b2)).length =
      (st.posts.filter (fun q => q.blog_id == b2)).length := by
  intro r
  have haddeq : r =
      (overwritePost p title content pubd auth wc rt tags cats md,
       { st with
           posts := replaceFirst (fun q => q.url == url)
             (fun _ => overwritePost p title content pubd auth wc rt tags cats md) st.posts }) := by
    show addPost st b2 title url content pubd auth wc rt tags cats md = _
    unfold addPost
    rw [hfind]
  have hfp0 := List.find?_some hfind
  have hfp : (p.url == url) = true := hfp0
  have hmapb : r.2.posts.map PostRec.blog_id = st.posts.map PostRec.blog_id := by
    rw [haddeq]
    exact replaceFirst_map _ _ PostRec.blog_id st.posts p hfind rfl
  have hcountb : ∀ l : List PostRec,
      (l.filter (fun q => q.blog_id == b2)).length =
        (l.map PostRec.blog_id).countP (fun b => b == b2) := by
    intro l
    rw [← List.countP_eq_length_filter, List.countP_map]
    rfl
  refine ⟨by rw [haddeq], by rw [haddeq]; rfl, by rw [haddeq]; rfl, by rw [haddeq]; rfl,
    by rw [haddeq], ?_, hmapb, ?_, ?_, ?_⟩
  · rw [haddeq]
    exact replaceFirst_length _ _ st.posts
  · rw [haddeq]
    exact replaceFirst_map _ _ PostRec.url st.posts p hfind rfl
  · rw [haddeq]
    exact replaceFirst_find? _ _ hfp st.posts p hfind
  · rw [hcountb, hcountb, hmapb]

/-- Post of blog 1 in the cross-blog upsert witness store. -/
def pTen : PostRec :=
  ⟨0, 1, "t1", "https://a.example/p1", none, none, none, none, none, none, none, []⟩

/-- Store of the cross-blog upsert witness: one post, owned by blog 1. -/
def stTen : Store := ⟨[], [pTen], 1⟩

/-- Witness for claim C10: blog 2 ingests the url persisted under blog 1;
the stored row keeps blog_id 1. -/
theorem add_post_url_keyed_overwrite_witness :
    (addPost stTen 2 "t2" "https://a.example/p1" none none none none none [] [] []).1.blog_id = 1 ∧
    (addPost stTen 2 "t2" "https://a.example/p1" none none none none none [] [] []).2.posts.map
        PostRec.blog_id = [1] := by
  have h := add_post_url_keyed_overwrite stTen pTen 2 "t2" "https://a.example/p1"
    none none none none none [] [] [] (by decide)
  exact ⟨h.2.1, h.2.2.2.2.2.2.1⟩

/-! Claim C7: update ingests only new urls. -/

/-- Claim C7: with one persisted post at u1 owned by the blog, and a
recollection yielding a candidate at u1 and one at a fresh u2, update adds
exactly the u2 candidate as a fresh row, returns 1, and the persisted u1
row appears unchanged in the resulting store. -/
theorem update_adds_only_new (w : World) (b : BlogRec) (pOld : PostRec) (c1 c2 : Candidate)
    (st : Store)
    (hb : getBlog st b.bid = some b)
    (hposts : st.posts = [pOld])
    (hown : pOld.blog_id = b.bid)
    (hrec : recollect w b = [c1, c2])
    (h1 : c1.url = pOld.url)
    (h2 : c2.url ≠ pOld.url) :
    updateBlog w st b.bid =
      Except.ok (1,
        { blogs := st.blogs,
          posts := [pOld,
            mkFreshPost st.nextId b.bid c2.title c2.url (cleanCandidateContent w c2)
              c2.published_date (pyOr c2.author b.author_name)
              (derivedCounts (cleanCandidateContent w c2)).1
              (derivedCounts (cleanCandidateContent w c2)).2
              c2.tags c2.categories c2.metadata],
          nextId := st.nextId + 1 }) := by
  have hex : (getPostsByBlog st b.bid).map PostRec.url = [pOld.url] := by
    simp [getPostsByBlog, hposts, hown]
  have hc1 : ([pOld.url].contains c1.url) = true := by simp [h1]
  have hc2 : ([pOld.url].contains c2.url) = false := by simp [h2]
  have hfind : st.posts.find? (fun q => q.url == c2.url) = none := by
    rw [hposts]
    have : (pOld.url == c2.url) = false := by
      simp
      exact fun hx => h2 hx.symm
    simp [List.find?_cons, this]
  simp only [updateBlog, hb, hrec, hex, List.foldl_cons, List.foldl_nil, hc1, hc2,
    if_true, if_false, ingestPost, addPost, hfind]
  rw [hposts]
  rfl

/-- Blog row of the update witness. -/
def bW : BlogRec := ⟨1, "B", "https://w.example", none, none, "crawler"⟩

/-- Persisted post of the update witness, owned by the blog. -/
def pW : PostRec :=
  ⟨0, 1, "t1", "https://w.example/post-1", some "old", none, none, none, none, none, none, []⟩

/-- Store of the update witness. -/
def stW : Store := ⟨[bW], [pW], 5⟩

/-- Known candidate of the update witness, at the persisted url. -/
def cW1 : Candidate := mkCand "t1" "https://w.example/post-1"

/-- Fresh candidate of the update witness. -/
def cW2 : Candidate := mkCand "t2" "https://w.example/post-2"

/-- World of the update witness: the blog root yields both candidates, any
other page fails. -/
def w7 : World :=
  { defaultWorld with
      fetch := fun u =>
        if u == "https://w.example" then PageFetch.ok 200 [cW1, cW2]
        else PageFetch.fail }

/-- Witness for claim C7 at the concrete store and world. -/
theorem update_adds_only_new_witness :
    updateBlog w7 stW 1 =
      Except.ok (1,
        { blogs := [bW],
          posts := [pW,
            mkFreshPost 5 1 "t2" "https://w.example/post-2" none none none none none [] [] []],
          nextId := 6 }) :=
  update_adds_only_new w7 bW pW cW1 cW2 stW (by decide) rfl rfl (by decide) rfl (by decide)

end BlogToolkit
